import Mathlib

/-!  Verification development for the discovery crawler of this repository:
the Google Maps scraper (agents/discovery/google_maps.py) and the endurance
run loop (run_discovery.py).  Python functions are shallowly embedded as
executable Lean definitions; browser pages are modelled as oracles (selector
string to element), exceptions as Option, Python floats as exact rationals,
and Python dicts as insertion-ordered association lists.  -/

/-! ## Generic string helpers mirroring Python semantics -/

/-- Python str.lower() for one character.  Python lowercases full Unicode;
this model covers ASCII plus the accented Spanish range this repository
works with (day names, selectors, aria labels). -/
def pyLowerChar (c : Char) : Char :=
  if 'A' ≤ c ∧ c ≤ 'Z' then Char.ofNat (c.toNat + 32)
  else if c = 'Á' then 'á'
  else if c = 'É' then 'é'
  else if c = 'Í' then 'í'
  else if c = 'Ó' then 'ó'
  else if c = 'Ú' then 'ú'
  else if c = 'Ñ' then 'ñ'
  else if c = 'Ü' then 'ü'
  else c

/-- Python str.lower() (restricted to the character range above). -/
def pyLower (s : String) : String :=
  String.mk (s.toList.map pyLowerChar)

/-- Python str.strip(): drop whitespace from both ends (kept as a plain
structural definition so that it evaluates inside the kernel). -/
def pyStrip (s : String) : String :=
  String.mk (((s.toList.dropWhile Char.isWhitespace).reverse.dropWhile Char.isWhitespace).reverse)

/-- Python truthiness of an optional string: None and the empty string are
falsy, everything else truthy. -/
def pyTruthy : Option String → Bool
  | none => false
  | some s => s ≠ ""

/-- Does the pattern (first argument) occur at the head of the list? -/
def startsWithChars : List Char → List Char → Bool
  | [], _ => true
  | _ :: _, [] => false
  | p :: ps, c :: cs => (p == c) && startsWithChars ps cs

/-- Does the pattern occur anywhere in the list (Python `pat in s`)? -/
def containsChars (pat : List Char) : List Char → Bool
  | [] => startsWithChars pat []
  | c :: cs => startsWithChars pat (c :: cs) || containsChars pat cs

/-- Python substring test `pat in s`. -/
def containsSub (s pat : String) : Bool :=
  containsChars pat.toList s.toList

/-- Skip a run of whitespace (the regex piece for zero or more spaces). -/
def skipWs (cs : List Char) : List Char :=
  cs.dropWhile (fun c => c.isWhitespace)

/-- Numeric value of a digit character. -/
def digitVal (c : Char) : Nat := c.toNat - 48

/-- Natural number denoted by a list of digit characters (Python int()). -/
def natOfDigits (ds : List Char) : Nat :=
  ds.foldl (fun a c => 10 * a + digitVal c) 0

/-- Two-digit zero padding, Python format 02d. -/
def fmt2 (n : Nat) : String :=
  if n < 10 then "0" ++ toString n else toString n

/-! ## run_discovery.py : configuration constants -/

/-- MAX_RETRIES from run_discovery.py. -/
def MAX_RETRIES : Nat := 3

/-! ## run_discovery.py : LeadsManager -/

/-- One lead dict as passed to LeadsManager.add_lead; only the keys that
add_lead and count_qualified read are modelled (missing keys are none). -/
structure Business where
  name : String
  phone : Option String
  website_url : Option String
  website_status : Option String
deriving DecidableEq, Repr

/-- In-memory state of a LeadsManager: the persisted list plus the
seen-names index (a Python set, modelled as a duplicate-free list used
only through membership). -/
structure LeadsState where
  leads : List Business
  seen_names : List String
deriving DecidableEq, Repr

/-- LeadsManager.add_lead: reject when the lowercased stripped name is
already indexed; reject when the record has a website (truthy website_url
or website_status equal to "active"); otherwise append, index the name,
and return true. -/
def add_lead (st : LeadsState) (b : Business) : Bool × LeadsState :=
  let name := pyStrip (pyLower b.name)
  if name ∈ st.seen_names then
    (false, st)
  else if pyTruthy b.website_url || b.website_status == some "active" then
    (false, st)
  else
    (true, ⟨st.leads ++ [b], name :: st.seen_names⟩)

/-- LeadsManager.count_qualified: leads with no website_url and a
website_status other than "active". -/
def count_qualified (leads : List Business) : Nat :=
  (leads.filter (fun b => !pyTruthy b.website_url && b.website_status ≠ some "active")).length

/-- The dedup identity key named by the specification: normalized-lowercase
name plus (if present) the digits of the phone. -/
def normPhoneDigits : Option String → String
  | none => ""
  | some s => String.mk (s.toList.filter Char.isDigit)

/-- Dedup identity key of a record (spec section 3). -/
def dedupKey (b : Business) : String × String :=
  (pyStrip (pyLower b.name), normPhoneDigits b.phone)

/-- Fold a whole sequence of add_lead calls over a state. -/
def runAddLeads (st : LeadsState) (bs : List Business) : LeadsState :=
  bs.foldl (fun s b => (add_lead s b).2) st

/-- A fresh LeadsManager over an absent leads file. -/
def initLeads : LeadsState := ⟨[], []⟩

/-! ## run_discovery.py : SearchHistory and the search plan -/

/-- One (category_key, search_term, location) combination from
generate_search_combinations. -/
structure SearchTask where
  category : String
  term : String
  loc : String
deriving DecidableEq, Repr

/-- SearchHistory.is_completed: membership of "term|location" in the
persisted completion set. -/
def is_completed (history : List String) (category location : String) : Bool :=
  (category ++ "|" ++ location) ∈ history

/-- SearchHistory.mark_completed: add "term|location" to the set (set
semantics: the list is used only through membership). -/
def mark_completed (history : List String) (category location : String) : List String :=
  (category ++ "|" ++ location) :: history

/-- The pending filter of run_endurance_loop (lines 370-373): keep the
combinations whose key is not yet in the history. -/
def pendingTasks (history : List String) (combos : List SearchTask) : List SearchTask :=
  combos.filter (fun t => !is_completed history t.term t.loc)

/-- The task-iteration skeleton of run_endurance_loop: walk the pending
list in order, stopping as soon as the qualified-lead count has reached
the target; the per-task lead yield is abstracted as a function. -/
def loopExec (target : Nat) (yield : SearchTask → Nat) : Nat → List SearchTask → List SearchTask
  | _, [] => []
  | n, t :: rest =>
    if target ≤ n then [] else t :: loopExec target yield (n + yield t) rest

/-! ## run_discovery.py : per-task retry loop -/

/-- Combined mutable state of the run loop: completion history plus the
lead store. -/
structure RunState where
  history : List String
  leadsSt : LeadsState
deriving DecidableEq, Repr

/-- The retry loop of run_endurance_loop (lines 409-463) for one task.
outcomes n is the result of the n-th search attempt: some results when
search_businesses returns, none when it raises.  On success the results
are folded through add_lead and the task is marked completed; on an
exception the retry counter is bumped and the attempt repeated.  Returns
the new state, the success flag, and the number of attempts made. -/
def attemptLoop (outcomes : Nat → Option (List Business)) (maxR : Nat) (st : RunState)
    (key : String) (retry attempts : Nat) : RunState × Bool × Nat :=
  if _h : retry < maxR then
    match outcomes attempts with
    | some results =>
        (⟨key :: st.history,
          results.foldl (fun ls b => (add_lead ls b).2) st.leadsSt⟩, true, attempts + 1)
    | none => attemptLoop outcomes maxR st key (retry + 1) (attempts + 1)
  else (st, false, attempts)
termination_by maxR - retry
decreasing_by omega

/-- Processing of one task by run_endurance_loop: run the retry loop and,
when all attempts failed, still mark the task completed (line 468). -/
def processTask (st : RunState) (key : String) (outcomes : Nat → Option (List Business)) :
    RunState :=
  let r := attemptLoop outcomes MAX_RETRIES st key 0 0
  if r.2.1 then r.1 else ⟨key :: r.1.history, r.1.leadsSt⟩

/-! ## google_maps.py : regex emulation pieces for _parse_hours_text -/

/-- Greedy alternatives for the regex piece of one or two digits: the
two-digit take is tried first, then the one-digit take. -/
def hourAlts : List Char → List (Nat × List Char)
  | a :: b :: r =>
    if a.isDigit then
      if b.isDigit then [(10 * digitVal a + digitVal b, r), (digitVal a, b :: r)]
      else [(digitVal a, b :: r)]
    else []
  | [a] => if a.isDigit then [(digitVal a, [])] else []
  | [] => []

/-- Greedy alternatives for the optional minute group (a colon followed by
exactly two digits), the consuming branch first. -/
def minuteAlts : List Char → List (Option String × List Char)
  | ':' :: a :: b :: r =>
    if a.isDigit && b.isDigit then
      [(some (String.mk [a, b]), r), (none, ':' :: a :: b :: r)]
    else [(none, ':' :: a :: b :: r)]
  | cs => [(none, cs)]

/-- Case-insensitive match of the period marker: the letter, an optional
dot, optional whitespace, the letter m, an optional dot (the regex piece
used for both the a.m. and p.m. markers). -/
def matchPeriodMarker (letter : Char) (cs : List Char) : Option (List Char) :=
  match cs with
  | c :: r =>
    if pyLowerChar c == letter then
      let r1 := match r with
                | '.' :: r' => r'
                | _ => r
      match skipWs r1 with
      | m :: r3 =>
        if pyLowerChar m == 'm' then
          some (match r3 with
                | '.' :: r4 => r4
                | _ => r3)
        else none
      | [] => none
    else none
  | [] => none

/-- Match the range separator alternation (the letter a, the word to, a
hyphen, or an en dash), case-insensitively when ci is set. -/
def matchSep (ci : Bool) (cs : List Char) : Option (List Char) :=
  match cs with
  | c :: r =>
    if (if ci then pyLowerChar c == 'a' else c == 'a') then some r
    else if (if ci then pyLowerChar c == 't' else c == 't') then
      match r with
      | o :: r' => if (if ci then pyLowerChar o == 'o' else o == 'o') then some r' else none
      | [] => none
    else if c == '-' ∨ c == '–' then some r
    else none
  | [] => none

/-- Try the 12-hour pattern of _parse_hours_text at the head of the list:
one or two digits, optional minutes, whitespace, a.m. marker, separator,
one or two digits, optional minutes, whitespace, p.m. marker (the source
regex, IGNORECASE).  Group defaults of "00" applied as in the source. -/
def amPmAt (cs : List Char) : Option (Nat × String × Nat × String) :=
  (hourAlts cs).findSome? (fun hr =>
    (minuteAlts hr.2).findSome? (fun mr => do
      let r1 ← matchPeriodMarker 'a' (skipWs mr.2)
      let r2 ← matchSep true (skipWs r1)
      (hourAlts (skipWs r2)).findSome? (fun hr2 =>
        (minuteAlts hr2.2).findSome? (fun mr2 => do
          let _r3 ← matchPeriodMarker 'p' (skipWs mr2.2)
          some (hr.1, mr.1.getD "00", hr2.1, mr2.1.getD "00")))))

/-- Leftmost search with the 12-hour pattern. -/
def amPmSearch : List Char → Option (Nat × String × Nat × String)
  | [] => none
  | c :: cs =>
    match amPmAt (c :: cs) with
    | some r => some r
    | none => amPmSearch cs

/-- Try the 24-hour range pattern at the head of the list: one or two
digits, colon, two digits, whitespace, separator (case-sensitive here:
the source regex has no IGNORECASE), whitespace, one or two digits,
colon, two digits. -/
def time24At (cs : List Char) : Option (Nat × String × Nat × String) :=
  (hourAlts cs).findSome? (fun hr =>
    match hr.2 with
    | ':' :: a :: b :: r =>
      if a.isDigit && b.isDigit then
        match matchSep false (skipWs r) with
        | some r2 =>
          (hourAlts (skipWs r2)).findSome? (fun hr2 =>
            match hr2.2 with
            | ':' :: a2 :: b2 :: _ =>
              if a2.isDigit && b2.isDigit then
                some (hr.1, String.mk [a, b], hr2.1, String.mk [a2, b2])
              else none
            | _ => none)
        | none => none
      else none
    | _ => none)

/-- Leftmost search with the 24-hour range pattern. -/
def time24Search : List Char → Option (Nat × String × Nat × String)
  | [] => none
  | c :: cs =>
    match time24At (c :: cs) with
    | some r => some r
    | none => time24Search cs

/-! ## google_maps.py : _parse_hours_text -/

/-- The day-name normalization table of _parse_hours_text. -/
def day_map : List (String × String) :=
  [("lunes", "monday"), ("monday", "monday"),
   ("martes", "tuesday"), ("tuesday", "tuesday"),
   ("miércoles", "wednesday"), ("miercoles", "wednesday"), ("wednesday", "wednesday"),
   ("jueves", "thursday"), ("thursday", "thursday"),
   ("viernes", "friday"), ("friday", "friday"),
   ("sábado", "saturday"), ("sabado", "saturday"), ("saturday", "saturday"),
   ("domingo", "sunday"), ("sunday", "sunday")]

/-- Canonical day key: table lookup on the lowercased stripped day name,
defaulting to that name itself. -/
def dayKeyOf (day : String) : String :=
  let d := pyStrip (pyLower day)
  match day_map.lookup d with
  | some k => k
  | none => d

/-- The closed test of _parse_hours_text: cerrado or closed occurs in the
lowercased time text. -/
def isClosedText (t : String) : Bool :=
  containsSub (pyLower t) "cerrado" || containsSub (pyLower t) "closed"

/-- The open-24-hours test of _parse_hours_text: 24 occurs in the raw
text and hora or hour occurs in the lowercased text. -/
def is24Text (t : String) : Bool :=
  containsSub t "24" && (containsSub (pyLower t) "hora" || containsSub (pyLower t) "hour")

/-- MapsScraper._parse_hours_text: normalize the day name, then the
closed case, the 24-hours case, the 12-hour pattern (adding 12 to the
ending hour), the 24-hour pattern, else the stripped text unchanged. -/
def parse_hours_text (day time_text : String) : String × String :=
  let day_key := dayKeyOf day
  if isClosedText time_text then (day_key, "closed")
  else if is24Text time_text then (day_key, "00:00-24:00")
  else
    let t := pyStrip time_text
    match amPmSearch t.toList with
    | some (h1, m1, h2, m2) =>
        (day_key, fmt2 h1 ++ ":" ++ m1 ++ "-" ++ fmt2 (h2 + 12) ++ ":" ++ m2)
    | none =>
      match time24Search t.toList with
      | some (h1, m1, h2, m2) =>
          (day_key, fmt2 h1 ++ ":" ++ m1 ++ "-" ++ fmt2 h2 ++ ":" ++ m2)
      | none => (day_key, t)


/-! ## google_maps.py : small field parsers -/

/-- Maximal runs of characters satisfying P (re.findall of a character
class), via a structural accumulator. -/
def runsByAux (P : Char → Bool) : List Char → List Char → List (List Char)
  | [], acc => if acc = [] then [] else [acc.reverse]
  | c :: cs, acc =>
    if P c then runsByAux P cs (c :: acc)
    else if acc = [] then runsByAux P cs []
    else acc.reverse :: runsByAux P cs []

/-- Maximal runs of characters satisfying P. -/
def maximalRuns (P : Char → Bool) (cs : List Char) : List (List Char) :=
  runsByAux P cs []

/-- Leftmost search for the regex shape class-run, optional whitespace,
literal word: used by the star/review/person/photo/percent parsers.
Returns the captured run.  (A match attempt starting inside a run fails
exactly when the attempt at the run start fails, because the words never
begin with a class character, so scanning run-by-run is faithful.) -/
def findRunBeforeAux (P : Char → Bool) (word : List Char) : List Char → List Char → Option (List Char)
  | [], acc =>
    if acc ≠ [] ∧ startsWithChars word [] then some acc.reverse else none
  | c :: cs, acc =>
    if P c then findRunBeforeAux P word cs (c :: acc)
    else if acc ≠ [] ∧ startsWithChars word (skipWs (c :: cs)) then some acc.reverse
    else findRunBeforeAux P word cs []

/-- Leftmost search for class-run, whitespace, word. -/
def findRunBefore (P : Char → Bool) (word : List Char) (cs : List Char) : Option (List Char) :=
  findRunBeforeAux P word cs []

/-- Leftmost match of the decimal shape digits, optional dot, optional
fraction digits (the _parse_rating regex), as an exact rational; Python
produces a float here. -/
def findFirstDecimal : List Char → Option Rat
  | [] => none
  | c :: cs =>
    if c.isDigit then
      let ip := c :: cs.takeWhile Char.isDigit
      let rest := cs.dropWhile Char.isDigit
      let fr := match rest with
                | '.' :: r => r.takeWhile Char.isDigit
                | _ => []
      some ((natOfDigits ip : Rat) + (natOfDigits fr : Rat) / ((10 : Rat) ^ fr.length))
    else findFirstDecimal cs

/-- MapsScraper._parse_rating: commas become dots, then the first decimal
match; 0 when nothing matches or the text is empty. -/
def parse_rating (text : String) : Rat :=
  match findFirstDecimal (text.toList.map (fun c => if c == ',' then '.' else c)) with
  | some q => q
  | none => 0

/-- MapsScraper._parse_review_count: remove dots and commas, findall
numeric runs, integer value of the first run (0 otherwise). -/
def parse_review_count (text : String) : Nat :=
  match maximalRuns Char.isDigit (text.toList.filter (fun c => c ≠ '.' ∧ c ≠ ',')) with
  | [] => 0
  | r :: _ => natOfDigits r

/-- MapsScraper._clean_price_range: non-breaking spaces become spaces,
zero-width spaces are removed, and whitespace runs collapse to single
spaces (strip plus split plus join in the source). -/
def clean_price_range (text : String) : String :=
  if text = "" then ""
  else
    let cs := (text.toList.map (fun c => if c == '\u00A0' then ' ' else c)).filter
      (fun c => c ≠ '\u200B')
    String.intercalate " " ((maximalRuns (fun c => !c.isWhitespace) cs).map String.mk)

/-- MapsScraper._estimate_price_level: count currency glyphs, else bucket
the largest embedded numeral (dots removed) into four tiers. -/
def estimate_price_level (price_text : String) : Nat :=
  if price_text = "" then 0
  else
    let cs := price_text.toList
    let dollar_count := (cs.filter (fun c => c == '$')).length + (cs.filter (fun c => c == '₲')).length
    if dollar_count ≥ 4 then 4
    else if dollar_count ≥ 3 then 3
    else if dollar_count ≥ 2 then 2
    else if dollar_count ≥ 1 then 1
    else
      match maximalRuns Char.isDigit (cs.filter (fun c => c ≠ '.')) with
      | [] => 0
      | r :: rs =>
        let max_price := (rs.map natOfDigits).foldl Nat.max (natOfDigits r)
        if max_price > 200000 then 4
        else if max_price > 100000 then 3
        else if max_price > 50000 then 2
        else 1

/-- MapsScraper._classify_social_media. -/
def classify_social_media (url : Option String) : Option String :=
  match url with
  | none => none
  | some u =>
    if u = "" then none
    else
      let l := pyLower u
      if containsSub l "instagram.com" || containsSub l "instagr.am" then some "instagram"
      else if containsSub l "facebook.com" || containsSub l "fb.com" || containsSub l "fb.me" then
        some "facebook"
      else if containsSub l "tiktok.com" then some "tiktok"
      else if containsSub l "twitter.com" || containsSub l "x.com" then some "twitter"
      else if containsSub l "youtube.com" || containsSub l "youtu.be" then some "youtube"
      else if containsSub l "linkedin.com" then some "linkedin"
      else if containsSub l "wa.me" || containsSub l "whatsapp.com" then some "whatsapp"
      else none

/-- MapsScraper._classify_order_provider. -/
def classify_order_provider (url : Option String) : String :=
  match url with
  | none => ""
  | some u =>
    if u = "" then ""
    else
      let l := pyLower u
      if containsSub l "pedidosya" then "pedidosya"
      else if containsSub l "ubereats" then "ubereats"
      else if containsSub l "rappi" then "rappi"
      else if containsSub l "deliveroo" then "deliveroo"
      else if containsSub l "doordash" then "doordash"
      else "other"

/-! ## google_maps.py : _extract_place_id and URL coordinates -/

/-- The lowercase hexadecimal class of the place-id regex. -/
def isHexLower (c : Char) : Bool :=
  c.isDigit || ('a' ≤ c ∧ c ≤ 'f')

/-- Search for the data-blob place-id shape: the !1s marker, 0x, a hex
run, a colon, a hex run. -/
def placeIdPattern1 : List Char → Option String
  | [] => none
  | c :: cs =>
    (if startsWithChars "!1s0x".toList (c :: cs) then
      let after := (c :: cs).drop 5
      let h1 := after.takeWhile isHexLower
      let r1 := after.dropWhile isHexLower
      if h1 ≠ [] then
        match r1 with
        | ':' :: r2 =>
          let h2 := r2.takeWhile isHexLower
          if h2 ≠ [] then some (String.mk ('0' :: 'x' :: (h1 ++ ':' :: h2))) else none
        | _ => none
      else none
    else none).orElse (fun _ => placeIdPattern1 cs)

/-- Search for the query-parameter place-id shape: place_id= followed by
a nonempty run of non-ampersand characters. -/
def placeIdPattern2 : List Char → Option String
  | [] => none
  | c :: cs =>
    if startsWithChars "place_id=".toList (c :: cs) then
      let v := ((c :: cs).drop 9).takeWhile (fun x => x ≠ '&')
      if v ≠ [] then some (String.mk v) else placeIdPattern2 cs
    else placeIdPattern2 cs

/-- MapsScraper._extract_place_id: first the data-blob pattern, then the
query-parameter pattern. -/
def extract_place_id (url : String) : Option String :=
  if url = "" then none
  else
    match placeIdPattern1 url.toList with
    | some p => some p
    | none => placeIdPattern2 url.toList

/-- Parse the signed decimal piece of the coordinate regex; Python uses
float(), modelled as an exact rational. -/
def signedDecAt (cs : List Char) : Option (Rat × List Char) :=
  let p := match cs with
           | '-' :: r => (true, r)
           | _ => (false, cs)
  match p.2 with
  | c :: r =>
    if c.isDigit then
      let ip := c :: r.takeWhile Char.isDigit
      match r.dropWhile Char.isDigit with
      | '.' :: d :: r2 =>
        if d.isDigit then
          let fr := d :: r2.takeWhile Char.isDigit
          let v : Rat := (natOfDigits ip : Rat) + (natOfDigits fr : Rat) / ((10 : Rat) ^ fr.length)
          some (if p.1 then -v else v, r2.dropWhile Char.isDigit)
        else none
      | _ => none
    else none
  | [] => none

/-- Search for the at-sign coordinate pair in the page URL. -/
def coordSearch : List Char → Option (Rat × Rat)
  | [] => none
  | '@' :: cs =>
    (match signedDecAt cs with
     | some lr =>
       (match lr.2 with
        | ',' :: r2 =>
          match signedDecAt r2 with
          | some lg => some (lr.1, lg.1)
          | none => none
        | _ => none)
     | none => none).orElse (fun _ => coordSearch cs)
  | _ :: cs => coordSearch cs

/-- Coordinates extracted from the detail-view URL. -/
def urlCoords (url : String) : Option (Rat × Rat) :=
  coordSearch url.toList

/-! ## google_maps.py : aria-label parsers -/

/-- Case-insensitive prefix test against a lowercase pattern. -/
def ciStartsWith (pat : String) (cs : List Char) : Bool :=
  startsWithChars pat.toList (cs.map pyLowerChar)

/-- Search for the hour piece of the popular-times label: hora colon,
whitespace, digits, whitespace, a period marker; case-insensitive.
Returns the digits and whether the marker was the p.m. one. -/
def horaSearch : List Char → Option (Nat × Bool)
  | [] => none
  | c :: cs =>
    (if ciStartsWith "hora:" (c :: cs) then
      let r := skipWs ((c :: cs).drop 5)
      let ds := r.takeWhile Char.isDigit
      let r1 := skipWs (r.dropWhile Char.isDigit)
      if ds ≠ [] then
        match matchPeriodMarker 'a' r1 with
        | some _ => some (natOfDigits ds, false)
        | none =>
          match matchPeriodMarker 'p' r1 with
          | some _ => some (natOfDigits ds, true)
          | none => none
      else none
    else none).orElse (fun _ => horaSearch cs)

/-- MapsScraper._parse_popular_times_label: the percentage before the
percent sign and the hour converted by the a.m. and p.m. rules of the
source (p.m. adds 12 except at 12, a.m. 12 becomes 0). -/
def parse_popular_times_label (aria : String) : Nat × Nat :=
  if aria = "" then (0, 0)
  else
    let percent := match findRunBefore Char.isDigit ['%'] aria.toList with
                   | some r => natOfDigits r
                   | none => 0
    match horaSearch aria.toList with
    | some hp =>
      let hour := if hp.2 ∧ hp.1 ≠ 12 then hp.1 + 12
                  else if ¬ hp.2 ∧ hp.1 = 12 then 0
                  else hp.1
      (hour, percent)
    | none => (0, percent)

/-- The anchored review-topic pattern: a greedy comma-free group, an
optional comma, whitespace, the words mencionado en (case-insensitive),
whitespace, digits.  k counts down the candidate group lengths from the
longest (the greedy order of the source regex). -/
def reviewTopicAt (cs : List Char) : Nat → Option (String × Nat)
  | 0 => none
  | k + 1 =>
    let pre := cs.take (k + 1)
    if (pre.filter (fun c => c == ',')).length = 0 then
      let rest0 := cs.drop (k + 1)
      let rest1 := match rest0 with
                   | ',' :: r => r
                   | _ => rest0
      let rest2 := skipWs rest1
      if ciStartsWith "mencionado en" rest2 then
        let ds := (skipWs (rest2.drop 13)).takeWhile Char.isDigit
        if ds ≠ [] then some (String.mk pre, natOfDigits ds)
        else reviewTopicAt cs k
      else reviewTopicAt cs k
    else reviewTopicAt cs k

/-- MapsScraper._parse_review_topic: the stripped topic group and the
mention count, else the label itself with count zero. -/
def parse_review_topic (aria : String) : String × Nat :=
  if aria = "" then ("", 0)
  else
    match reviewTopicAt aria.toList aria.toList.length with
    | some tn => (pyStrip tn.1, tn.2)
    | none => (aria, 0)

/-- MapsScraper._parse_rating_distribution: digits before estrellas and
digits before reseñas, searched independently, defaulting to zero. -/
def parse_rating_distribution (aria : String) : Nat × Nat :=
  if aria = "" then (0, 0)
  else
    let stars := match findRunBefore Char.isDigit "estrella".toList aria.toList with
                 | some r => natOfDigits r
                 | none => 0
    let count := match findRunBefore Char.isDigit "reseña".toList aria.toList with
                 | some r => natOfDigits r
                 | none => 0
    (stars, count)

/-! ## google_maps.py : photo URL rewriting -/

/-- Python str.replace for a nonempty pattern, non-overlapping and left
to right; the pattern is passed as head character plus tail. -/
def replaceSub (p0 : Char) (ps rep : List Char) : List Char → List Char
  | [] => []
  | c :: cs =>
    if c == p0 && startsWithChars ps cs then rep ++ replaceSub p0 ps rep (cs.drop ps.length)
    else c :: replaceSub p0 ps rep cs
termination_by l => l.length
decreasing_by
  · have := cs.length_drop ps.length; simp; omega
  · simp

/-- Python str.replace (only called with nonempty patterns here). -/
def pyReplace (s pat rep : String) : String :=
  match pat.toList with
  | [] => s
  | p :: ps => String.mk (replaceSub p ps rep.toList s.toList)

/-- Length bound for dropWhile, used by termination arguments. -/
theorem dropWhile_length_le (p : Char → Bool) (l : List Char) :
    (l.dropWhile p).length ≤ l.length :=
  ((List.dropWhile_suffix p).sublist).length_le

/-- The part of the size token after the width digits: hyphen, h, digits;
returns the rest after the match. -/
def sizeTokenTail : List Char → Option (List Char)
  | c :: d :: cs2 =>
    if c = '-' ∧ d = 'h' then
      if cs2.takeWhile Char.isDigit = [] then none
      else some (cs2.dropWhile Char.isDigit)
    else none
  | _ => none

/-- Match the size token of a photo URL: equals sign, w, digits, hyphen,
h, digits; returns the rest after the match. -/
def matchSizeToken : List Char → Option (List Char)
  | a :: b :: cs =>
    if a = '=' ∧ b = 'w' then
      if cs.takeWhile Char.isDigit = [] then none
      else sizeTokenTail (cs.dropWhile Char.isDigit)
    else none
  | _ => none

theorem sizeTokenTail_length {l r : List Char} (h : sizeTokenTail l = some r) :
    r.length + 2 ≤ l.length := by
  cases l with
  | nil => simp [sizeTokenTail] at h
  | cons c t =>
    cases t with
    | nil => simp [sizeTokenTail] at h
    | cons d cs2 =>
      simp only [sizeTokenTail] at h
      split at h
      · split at h
        · simp at h
        · simp only [Option.some.injEq] at h
          have h2 := dropWhile_length_le Char.isDigit cs2
          subst h
          simp only [List.length_cons]
          omega
      · simp at h

theorem matchSizeToken_length {l r : List Char} (h : matchSizeToken l = some r) :
    r.length < l.length := by
  cases l with
  | nil => simp [matchSizeToken] at h
  | cons a t =>
    cases t with
    | nil => simp [matchSizeToken] at h
    | cons b cs =>
      simp only [matchSizeToken] at h
      split at h
      · split at h
        · simp at h
        · have h1 := dropWhile_length_le Char.isDigit cs
          have h2 := sizeTokenTail_length h
          simp only [List.length_cons]
          omega
      · simp at h

/-- The substitution of every size token by the fixed w800-h600 token
(the re.sub in the photo pipeline). -/
def subSizeToken : List Char → List Char
  | [] => []
  | c :: cs =>
    match h : matchSizeToken (c :: cs) with
    | some rest => "=w800-h600".toList ++ subSizeToken rest
    | none => c :: subSizeToken cs
termination_by l => l.length
decreasing_by
  · exact matchSizeToken_length h
  · simp

/-- The high-resolution rewrite applied to photo URLs: three literal
replacements and then the size-token substitution. -/
def toHighRes (src : String) : String :=
  let s1 := pyReplace src "=w80-" "=w800-"
  let s2 := pyReplace s1 "=w100-" "=w800-"
  let s3 := pyReplace s2 "=w200-" "=w800-"
  String.mk (subSizeToken s3.toList)

/-- Quote characters of the style-attribute URL regex. -/
def isQuoteChar (c : Char) : Bool :=
  c == '"' || c == '\''

/-- Truncate a run at its last closing parenthesis (the backtracking of
the greedy quote-free class when no quote closes the match). -/
def truncAtLastParen (run : List Char) : Option (List Char) :=
  match run.reverse.dropWhile (fun c => c ≠ ')') with
  | ')' :: rest => if rest = [] then none else some rest.reverse
  | _ => none

/-- Content of a style url token: after an optional quote, the greedy
quote-free run; the match closes either with an optional quote and a
parenthesis right after the run, or with the last parenthesis inside the
run.  Models the regex url, parenthesis, optional quote, quote-free
group, optional quote, parenthesis. -/
def styleUrlContent (cs : List Char) : Option (List Char) :=
  let body := match cs with
              | c :: r => if isQuoteChar c then r else cs
              | [] => []
  let run := body.takeWhile (fun c => !isQuoteChar c)
  if run = [] then none
  else
    match body.dropWhile (fun c => !isQuoteChar c) with
    | _ :: ')' :: _ => some run
    | _ => truncAtLastParen run

/-- Leftmost style-attribute URL: the url( marker and then the content
match above. -/
def findStyleUrl : List Char → Option String
  | [] => none
  | c :: cs =>
    (if startsWithChars "url(".toList (c :: cs) then
      (styleUrlContent ((c :: cs).drop 4)).map String.mk
    else none).orElse (fun _ => findStyleUrl cs)

/-- Occurrence of the pattern with at least one character strictly after
it. -/
def occursWithTail (pat : List Char) : List Char → Bool
  | [] => false
  | c :: cs =>
    (startsWithChars pat (c :: cs) && decide (pat.length < (c :: cs).length)) || occursWithTail pat cs

/-- Occurrence of the pattern with at least one character on each side
(the googleusercontent variant of the style regex requires a nonempty
group piece before and after the literal). -/
def interiorOccurs (pat : List Char) (content : List Char) : Bool :=
  match content with
  | [] => false
  | _ :: t => occursWithTail pat t

/-- The googleusercontent-restricted style URL used for gallery and
review photos. -/
def findStyleUrlGUC (cs : List Char) : Option String :=
  match findStyleUrl cs with
  | some s => if interiorOccurs "googleusercontent".toList s.toList then some s else none
  | none => none

/-! ## google_maps.py : page model -/

/-- A DOM element handle: its inner text, its attributes, and its scoped
single and multiple selector queries (Playwright element_handle methods).
The page is a static oracle for one detail-view visit. -/
inductive El where
  | mk (text : String) (attr : String → Option String)
       (q1 : String → Option El) (qAll : String → List El) : El

/-- Inner text of an element. -/
def El.text : El → String
  | .mk t _ _ _ => t

/-- get_attribute on an element: none models a missing attribute. -/
def El.attr : El → String → Option String
  | .mk _ a _ _, s => a s

/-- query_selector scoped to an element. -/
def El.query : El → String → Option El
  | .mk _ _ q _, s => q s

/-- query_selector_all scoped to an element. -/
def El.queryAll : El → String → List El
  | .mk _ _ _ qa, s => qa s

/-- The page as seen during one detail extraction: its URL, the
wait_for_selector outcomes (true when the selector appears within its
timeout), and the page-level queries. -/
structure DetailPage where
  url : String
  presence : String → Bool
  query : String → Option El
  queryAll : String → List El

/-! ## google_maps.py : ScrapedBusiness -/

/-- The service-options dict initialised by the extractor. -/
structure ServiceOptions where
  dine_in : Bool
  takeout : Bool
  delivery : Bool
  curbside_pickup : Bool
deriving DecidableEq, Repr

/-- One harvested review (the dict built per review card). -/
structure Review where
  review_id : String
  author : String
  author_avatar : String
  author_profile_url : String
  is_local_guide : Bool
  author_reviews_count : Nat
  author_photos_count : Nat
  rating : Nat
  date : String
  text : String
  photos : List String
deriving DecidableEq, Repr

/-- One customer update entry. -/
structure CustomerUpdate where
  text : String
  date : String
deriving DecidableEq, Repr

/-- The ScrapedBusiness dataclass.  Python floats appear as exact
rationals; dicts as insertion-ordered association lists; the wall-clock
capture timestamp (scraped_at) and the unused raw_data field are not
modelled. -/
structure ScrapedBusiness where
  name : String
  google_place_id : Option String
  category : Option String
  address : Option String
  city : String
  neighborhood : Option String
  phone : Option String
  rating : Rat
  photo_urls : List String
  photo_count : Nat
  has_website : Bool
  website_url : Option String
  website_status : String
  price_range : Option String
  price_level : Nat
  price_per_person : Option String
  price_voters : Nat
  price_histogram : List (String × Nat)
  service_options : ServiceOptions
  accessibility : List String
  offerings : List String
  dining_options : List String
  amenities : List String
  planning : List String
  payments : List String
  parking : List String
  opening_hours : List (String × String)
  is_open_now : Option Bool
  open_status_text : Option String
  popular_times : List (String × List (String × Nat))
  order_link : Option String
  order_provider : Option String
  menu_link : Option String
  reserve_link : Option String
  social_media : List (String × String)
  plus_code : Option String
  photo_categories : List String
  review_topics : List (String × Nat)
  rating_distribution : List (String × Nat)
  reviews : List Review
  customer_updates : List CustomerUpdate
  latitude : Option Rat
  longitude : Option Rat
deriving DecidableEq, Repr

/-- Python dict assignment on an insertion-ordered association list:
update in place when the key exists, else append. -/
def dictInsert {β : Type} : List (String × β) → String → β → List (String × β)
  | [], k, v => [(k, v)]
  | (k', v') :: rest, k, v =>
    if k' = k then (k', v) :: rest else (k', v') :: dictInsert rest k v

/-- The city field derived from the location hint (text before the first
comma, stripped, when a comma occurs). -/
def extractedCity (location : String) : String :=
  if containsSub location "," then
    pyStrip (String.mk (location.toList.takeWhile (fun c => c ≠ ',')))
  else location

/-- The neighborhood field derived from the location hint. -/
def extractedNeighborhood (location : String) : Option String :=
  if containsSub location "," then
    some (pyStrip (String.mk (location.toList.takeWhile (fun c => c ≠ ','))))
  else none

/-! ## google_maps.py : per-field cascades of _extract_business_details -/

/-- Lines 761-767: the name cascade; a found element overwrites the
running value, and the loop stops at the first text that is nonempty, is
not the literal Resultados, and is longer than one character. -/
def nameLoop (p : DetailPage) : String → List String → String
  | acc, [] => acc
  | acc, s :: rest =>
    match p.query s with
    | none => nameLoop p acc rest
    | some el =>
      let n := el.text
      if n ≠ "" ∧ n ≠ "Resultados" ∧ 1 < n.length then n
      else nameLoop p n rest

/-- Lines 810-817: walk the small-font divs of the main panel; each div
mentioning reviews overwrites the count, and the loop stops at the first
strictly positive parse. -/
def reviewDivLoop : Nat → List El → Nat
  | acc, [] => acc
  | acc, d :: rest =>
    if containsSub (pyLower d.text) "reseña" then
      let c := parse_review_count d.text
      if c > 0 then c else reviewDivLoop c rest
    else reviewDivLoop acc rest

/-- Lines 827-833: the category cascade; a found element overwrites the
running value and a truthy text breaks. -/
def categoryLoop (p : DetailPage) : Option String → List String → Option String
  | acc, [] => acc
  | acc, s :: rest =>
    match p.query s with
    | none => categoryLoop p acc rest
    | some el =>
      if el.text ≠ "" then some el.text else categoryLoop p (some el.text) rest

/-- Lines 864-871: the price cascade; a found element overwrites range
and level, and a truthy cleaned range breaks. -/
def priceLoop (p : DetailPage) : (Option String × Nat) → List String → Option String × Nat
  | acc, [] => acc
  | acc, s :: rest =>
    match p.query s with
    | none => priceLoop p acc rest
    | some el =>
      let pr := clean_price_range el.text
      let lvl := estimate_price_level pr
      if pr ≠ "" then (some pr, lvl) else priceLoop p (some pr, lvl) rest

/-- Prefix of a list before the first occurrence of a nonempty pattern
(Python split on a literal, first piece). -/
def beforeSubAux (pat : List Char) : List Char → List Char
  | [] => []
  | c :: cs =>
    if startsWithChars pat (c :: cs) then [] else c :: beforeSubAux pat cs

/-- The style width percentage: the width token, optional whitespace,
digits, a percent sign. -/
def widthPercent : List Char → Option Nat
  | [] => none
  | c :: cs =>
    (if startsWithChars "width:".toList (c :: cs) then
      let r := skipWs ((c :: cs).drop 6)
      let ds := r.takeWhile Char.isDigit
      let ok := match r.dropWhile Char.isDigit with
                | '%' :: _ => true
                | _ => false
      if ds ≠ [] ∧ ok = true then some (natOfDigits ds) else none
    else none).orElse (fun _ => widthPercent cs)

/-- Lines 889-900: one histogram table pass. -/
def histLoop : List El → List (String × Nat) → List (String × Nat)
  | [], acc => acc
  | row :: rest, acc =>
    match row.query "td.fsAi0e" with
    | none => histLoop rest acc
    | some range_el =>
      let range_text := clean_price_range range_el.text
      let percent := match row.query "span.xYsBQe" with
                     | none => 0
                     | some pe =>
                       match widthPercent ((pe.attr "style").getD "").toList with
                       | some n => n
                       | none => 0
      histLoop rest (dictInsert acc range_text percent)

/-- Lines 912-917: one service-options group element applied through the
label map (each matching label assigns the offered flag). -/
def applyServiceEl (so : ServiceOptions) (aria_lower : String) : ServiceOptions :=
  let v := containsSub aria_lower "ofrece"
  let so1 := if containsSub aria_lower "consumo en el lugar" then {so with dine_in := v} else so
  let so2 := if containsSub aria_lower "comer en el lugar" then {so1 with dine_in := v} else so1
  let so3 := if containsSub aria_lower "comida para llevar" then {so2 with takeout := v} else so2
  let so4 := if containsSub aria_lower "para llevar" then {so3 with takeout := v} else so3
  let so5 := if containsSub aria_lower "entrega a domicilio" then {so4 with delivery := v} else so4
  let so6 := if containsSub aria_lower "envío a domicilio" then {so5 with delivery := v} else so5
  let so7 := if containsSub aria_lower "recogida en la acera" then {so6 with curbside_pickup := v} else so6
  so7

/-- Lines 929-938: the opening-hours table pass. -/
def hoursLoop : List El → List (String × String) → List (String × String)
  | [], acc => acc
  | row :: rest, acc =>
    match row.query "td.ylH6lf div", row.query "td.mxowUb" with
    | some day_el, some time_el =>
      let day_text := day_el.text
      let time_text := match time_el.attr "aria-label" with
                       | some a => if a ≠ "" then a else time_el.text
                       | none => time_el.text
      if day_text ≠ "" ∧ time_text ≠ "" then
        let dh := parse_hours_text day_text time_text
        hoursLoop rest (dictInsert acc dh.1 dh.2)
      else hoursLoop rest acc
    | _, _ => hoursLoop rest acc

/-- Lines 960-965: the hourly busyness bars of one day chart. -/
def barsFold (bars : List El) : List (String × Nat) :=
  bars.foldl (fun acc bar =>
    let hp := parse_popular_times_label ((bar.attr "aria-label").getD "")
    dictInsert acc (toString hp.1) hp.2) []

/-- Lines 948-965: the popular-times block: charts paired positionally
with the Sunday-first day names. -/
def popularTimes (p : DetailPage) : List (String × List (String × Nat)) :=
  match p.query "div.UmE4Qe[aria-label*=\"punta\"]" with
  | none => []
  | some _ =>
    let charts := p.queryAll "div.g2BVhd"
    let dayNames := ["sunday", "monday", "tuesday", "wednesday", "thursday", "friday", "saturday"]
    (charts.zip dayNames).foldl (fun acc cd =>
      dictInsert acc cd.2 (barsFold (cd.1.queryAll "div.dpoVLd[role=\"img\"]"))) []

/-- Lines 1193-1202: one info-tab service item through the keyword chain. -/
def applyServiceItem (so : ServiceOptions) (item : String) : ServiceOptions :=
  let il := pyLower item
  if containsSub il "domicilio" || containsSub il "delivery" then {so with delivery := true}
  else if containsSub il "llevar" || containsSub il "takeout" then {so with takeout := true}
  else if containsSub il "consumo" || containsSub il "lugar" || containsSub il "dine" then
    {so with dine_in := true}
  else if containsSub il "retiro" then {so with curbside_pickup := true}
  else so

/-- Accumulated lists of the information-tab block plus the service
options it may update. -/
structure InfoState where
  accessibility : List String
  offerings : List String
  dining_options : List String
  amenities : List String
  planning : List String
  payments : List String
  parking : List String
  service_options : ServiceOptions
deriving DecidableEq, Repr

/-- Lines 1172-1214: dispatch of one attribute section by its title. -/
def applyInfoSection (st : InfoState) (sec : El) : InfoState :=
  match sec.query "h2.iL3Qke" with
  | none => st
  | some title_el =>
    let title := pyLower title_el.text
    let items := (sec.queryAll "li.hpLkke span[aria-label]").foldl (fun acc it =>
      if it.text ≠ "" then acc ++ [pyStrip it.text] else acc) []
    if containsSub title "accesibilidad" then
      {st with accessibility := st.accessibility ++ items}
    else if containsSub title "opciones de servicio" then
      {st with service_options := items.foldl applyServiceItem st.service_options}
    else if containsSub title "qué ofrece" || containsSub title "que ofrece" then
      {st with offerings := st.offerings ++ items}
    else if containsSub title "opciones del local" then
      {st with dining_options := st.dining_options ++ items}
    else if containsSub title "servicios" then
      {st with amenities := st.amenities ++ items}
    else if containsSub title "planificación" || containsSub title "planificacion" then
      {st with planning := st.planning ++ items}
    else if containsSub title "pagos" then
      {st with payments := st.payments ++ items}
    else if containsSub title "estacionamiento" then
      {st with parking := st.parking ++ items}
    else st

/-- Lines 1159-1223: the information-tab block; a missing tab button or a
failed wait for the section container skips the whole block (the source
catches the raised timeout). -/
def infoTabState (p : DetailPage) (init : InfoState) : InfoState :=
  match p.query "button[aria-label*=\"Información sobre\"], button[data-tab-index=\"3\"]" with
  | none => init
  | some _ =>
    if p.presence "div.iP2t7d.fontBodyMedium" then
      (p.queryAll "div.iP2t7d.fontBodyMedium").foldl applyInfoSection init
    else init

/-- Lines 1050-1126: one review card. -/
def buildReview (card : El) : Review :=
  let author_info := match card.query "div.RfnDt" with
                     | some el => el.text
                     | none => ""
  { review_id := (card.attr "data-review-id").getD ""
    author := match card.query "div.d4r55" with
              | some el => el.text
              | none => "Anónimo"
    author_avatar := match card.query "img.NBa7we" with
                     | some el => (el.attr "src").getD ""
                     | none => ""
    author_profile_url := match card.query "button.al6Kxe[data-href]" with
                          | some btn => (btn.attr "data-href").getD ""
                          | none => ""
    is_local_guide := containsSub (pyLower author_info) "local guide"
    author_reviews_count := match findRunBefore Char.isDigit "reseña".toList author_info.toList with
                            | some g => natOfDigits g
                            | none => 0
    author_photos_count := match findRunBefore Char.isDigit "foto".toList author_info.toList with
                           | some g => natOfDigits g
                           | none => 0
    rating := match card.query "span.kvMYJc" with
              | some el =>
                match findRunBefore Char.isDigit "estrella".toList
                    ((el.attr "aria-label").getD "").toList with
                | some g => natOfDigits g
                | none => 0
              | none => 0
    date := match card.query "span.rsqaWe" with
            | some el => el.text
            | none => ""
    text := String.mk ((match card.query "span.wiI7pd" with
                        | some el => el.text
                        | none => "").toList.take 800)
    photos := ((card.queryAll "button.Tya61d").take 5).foldl (fun acc btn =>
      match findStyleUrl ((btn.attr "style").getD "").toList with
      | some u => acc ++ [u]
      | none => acc) [] }

/-- One gallery image element: the source is either a style background
URL (for the style selector) or the src attribute; additions stop once
fifteen URLs are collected, dedup is against the already converted URLs
(as in the source). -/
def galleryImgStep (isStyle : Bool) (st : List String × List String) (img : El) :
    List String × List String :=
  if st.1.length ≥ 15 then st
  else
    let src : Option String :=
      if isStyle then findStyleUrlGUC ((img.attr "style").getD "").toList
      else img.attr "src"
    match src with
    | some s =>
      if s ≠ "" ∧ containsSub s "googleusercontent" ∧ s ∉ st.2 then
        (st.1 ++ [toHighRes s], st.2 ++ [toHighRes s])
      else st
    | none => st

/-- The gallery selector cascade of lines 1250-1256; the flag records
whether the source reads the style attribute for that selector. -/
def photoSelectors : List (String × Bool) :=
  [("div.p0Jrsd img[src*=\"googleusercontent\"]", false),
   ("img.U39Pmb[src*=\"googleusercontent\"]", false),
   ("button[data-photo-index] img[src*=\"googleusercontent\"]", false),
   ("img[decoding=\"async\"][src*=\"googleusercontent\"]", false),
   ("div[style*=\"background-image\"]", true)]

/-! ## google_maps.py : _extract_business_details -/

set_option maxHeartbeats 2000000 in
/-- MapsScraper._extract_business_details (lines 749-1397).  clickOk
models success of the click on the result handle; a failed click or a
missing detail panel raises in the source and the catch-all returns
None.  All field reads follow the source order; the Escape dismissal and
logging have no effect on the returned record. -/
def extract_business_details (clickOk : Bool) (p : DetailPage) (location : String) :
    Option ScrapedBusiness :=
  if ¬ clickOk then none
  else if ¬ p.presence "div.m6QErb.DxyBCb, div[role=\"main\"]" then none
  else
    let name := nameLoop p "Unknown"
      ["h1.DUwDvf", "div.qBF1Pd.fontHeadlineSmall", "h2.qBF1Pd", "div.fontHeadlineSmall span"]
    let place_id := extract_place_id p.url
    -- rating and review count from the combined aria-label
    let rating_el := match p.query "div[role=\"main\"] span.ZkP5Je" with
                     | some el => some el
                     | none => p.query "span.ZkP5Je"
    let rr : Rat × Nat :=
      match rating_el with
      | some el =>
        let aria := (el.attr "aria-label").getD ""
        let rating := match findRunBefore (fun c => c.isDigit || c == ',' || c == '.')
            "estrella".toList aria.toList with
          | some g => parse_rating (String.mk g)
          | none => 0
        let clean_label := String.mk (aria.toList.filter (fun c => c ≠ '.' ∧ c ≠ ','))
        let rc := match findRunBefore Char.isDigit "reseña".toList clean_label.toList with
          | some g => natOfDigits g
          | none => 0
        (rating, rc)
      | none => (0, 0)
    let rating := if rr.1 == 0 then
        match (match p.query "div[role=\"main\"] span.MW4etd" with
               | some el => some el
               | none => p.query "span.MW4etd") with
        | some el => parse_rating el.text
        | none => rr.1
      else rr.1
    let rc1 := if rr.2 == 0 then
        match p.query "div[role=\"main\"] button[jsaction*=\"reviews\"]" with
        | some btn => parse_review_count btn.text
        | none => rr.2
      else rr.2
    let rc2 := if rc1 == 0 then
        reviewDivLoop 0 (p.queryAll "div[role=\"main\"] div.fontBodySmall")
      else rc1
    let _review_count := if rc2 == 0 then
        match p.query "span.UY7F9" with
        | some el => parse_review_count el.text
        | none => rc2
      else rc2
    -- the source computes the review count but does not store it in the
    -- ScrapedBusiness constructor
    let category := categoryLoop p none ["button[jsaction*=\"category\"]", "button.DkEaL"]
    let addr0 : Option String := (p.query "button[data-item-id=\"address\"] div.Io6YTe").map El.text
    let address := if pyTruthy addr0 then addr0
      else match p.query "button[data-item-id=\"address\"]" with
           | some el => some el.text
           | none => addr0
    let phone := (p.query "button[data-item-id*=\"phone\"]").map (fun el =>
      String.mk (el.text.toList.filter (fun c =>
        c.isDigit || c == '+' || c == '-' || c.isWhitespace || c == '(' || c == ')')))
    -- 1. price data
    let price := priceLoop p (none, 0) ["span.mgr77e span", "span.mgr77e"]
    let price_per_person := match p.query "div.MNVeJb div" with
      | some el =>
        if containsSub (pyLower el.text) "por persona" then
          some (clean_price_range (String.mk (beforeSubAux "por persona".toList el.text.toList)))
        else none
      | none => none
    let price_voters := match p.query "div.BfVpR" with
      | some el =>
        match findRunBefore Char.isDigit "persona".toList el.text.toList with
        | some g => natOfDigits g
        | none => 0
      | none => 0
    let price_histogram := histLoop
      (p.queryAll "table[aria-label*=\"Histograma\"] tr, table.rqRH4d tr") []
    -- 2. service options
    let so0 : ServiceOptions := ⟨false, false, false, false⟩
    let so1 := (p.queryAll "div.LTs0Rc[role=\"group\"], div.E0DTEd div.LTs0Rc").foldl
      (fun so el => applyServiceEl so (pyLower ((el.attr "aria-label").getD ""))) so0
    -- 3. accessibility
    let access0 := (p.queryAll "span.wmQCje[aria-label]").foldl (fun l el =>
      let a := pyLower ((el.attr "aria-label").getD "")
      if containsSub a "silla de ruedas" || containsSub a "wheelchair" then
        l ++ ["wheelchair_accessible"]
      else l) []
    -- 4. opening hours and open status
    let opening_hours := hoursLoop (p.queryAll "table.eK4R0e tbody tr.y0skZc") []
    let open_status_text : Option String := (p.query "span.ZDu9vd").map El.text
    let is_open_now : Option Bool := match open_status_text with
      | some t => if t ≠ "" then some (containsSub (pyLower t) "abierto") else none
      | none => none
    -- 5. popular times
    let popular_times := popularTimes p
    -- 6-8. third-party links
    let order_pair : Option String × Option String :=
      match p.query "a[data-item-id=\"action:4\"]" with
      | some el =>
        let ol := el.attr "href"
        (ol, some (classify_order_provider ol))
      | none => (none, none)
    let menu_link := (p.query "a[data-item-id=\"menu\"], button[aria-label=\"Carta\"]").bind
      (fun el => el.attr "href")
    let reserve_link := (p.query "a[data-item-id=\"reserve\"]").bind (fun el => el.attr "href")
    -- 9. plus code
    let plus_code := (p.query "button[data-item-id=\"oloc\"] div.Io6YTe").map El.text
    -- 10. website and social media
    let website : Option String × String × Bool × List (String × String) :=
      match p.query "a[data-item-id=\"authority\"]" with
      | some el =>
        match el.attr "href" with
        | some link =>
          if link ≠ "" then
            match classify_social_media (some link) with
            | some platform => (none, "social_only", false, [(platform, link)])
            | none => (some link, "active", true, [])
          else (none, "none", false, [])
        | none => (none, "none", false, [])
      | none => (none, "none", false, [])
    -- 11. photo categories
    let pc0 := (p.queryAll "div.fp2VUc button.K4UgGe").foldl (fun acc el =>
      match el.attr "aria-label" with
      | some label =>
        if label ≠ "" ∧ label ≠ "Foto siguiente" ∧ label ≠ "Foto anterior" then acc ++ [label]
        else acc
      | none => acc) []
    let photo_categories := if pc0 = [] then
        (p.queryAll "div.ofKBgf span.zaTlhd").foldl (fun acc el =>
          if el.text ≠ "" ∧ el.text ∉ acc then acc ++ [el.text] else acc) []
      else pc0
    -- 12. review topics
    let review_topics := (p.queryAll "div[role=\"radiogroup\"] button.e2moi[aria-label]").foldl
      (fun acc el =>
        let aria := (el.attr "aria-label").getD ""
        if containsSub (pyLower aria) "mencionado en" then
          let tc := parse_review_topic aria
          if tc.1 ≠ "" ∧ tc.2 > 0 then dictInsert acc tc.1 tc.2 else acc
        else acc) []
    -- 13. rating distribution
    let rating_distribution := (p.queryAll "tr.BHOKXe").foldl (fun acc row =>
      let sc := parse_rating_distribution ((row.attr "aria-label").getD "")
      if sc.1 > 0 then dictInsert acc (toString sc.1) sc.2 else acc) []
    -- 14. top reviews (capped at ten)
    let reviews := ((p.queryAll "div.jftiEf[data-review-id]").take 10).map buildReview
    -- 15. customer updates (capped at two)
    let customer_updates := ((p.queryAll "button.wjCxie").take 2).foldl (fun acc el =>
      let ut := match el.query "div.ZXMsO" with
                | some t => t.text
                | none => ""
      let ud := match el.query "div.jrtH8d" with
                | some d => d.text
                | none => ""
      if ut ≠ "" then acc ++ [⟨String.mk (ut.toList.take 300), ud⟩] else acc) []
    -- 16. information-tab attributes
    let info := infoTabState p
      ⟨access0, [], [], [], [], [], [], so1⟩
    -- photos: count, gallery, fallback, review photos
    let photos_btn := p.query "button[jsaction*=\"photos\"]"
    let photo_count0 := match photos_btn with
      | some btn =>
        match maximalRuns Char.isDigit btn.text.toList with
        | [] => 0
        | r :: _ => natOfDigits r
      | none => 0
    let gallery : List String :=
      match photos_btn with
      | some _ =>
        if photo_count0 > 0 then
          if p.presence "div[data-photo-index], img.U39Pmb, div.p0Jrsd img" then
            (photoSelectors.foldl (fun st sel =>
              (p.queryAll sel.1).foldl (galleryImgStep sel.2) st) ([], [])).1
          else []
        else []
      | none => []
    let photos1 := if gallery.length < 3 then
        ((p.queryAll "button[jsaction*=\"heroHeaderImage\"] img, img[decoding=\"async\"][src*=\"googleusercontent\"], div.p0Jrsd img").take 10).foldl
          (fun acc img =>
            match img.attr "src" with
            | some s =>
              if s ≠ "" ∧ containsSub s "googleusercontent" ∧ s ∉ acc then acc ++ [toHighRes s]
              else acc
            | none => acc) gallery
      else gallery
    let photo_urls := ((p.queryAll "button.Tya61d").take 5).foldl (fun acc btn =>
      match findStyleUrlGUC ((btn.attr "style").getD "").toList with
      | some s => if s ∉ acc then acc ++ [toHighRes s] else acc
      | none => acc) photos1
    -- coordinates from the URL
    let coords := urlCoords p.url
    some
      { name := pyStrip name
        google_place_id := place_id
        category := category
        address := address
        city := extractedCity location
        neighborhood := extractedNeighborhood location
        phone := phone
        rating := rating
        photo_urls := photo_urls
        photo_count := if photo_count0 ≠ 0 then photo_count0 else photo_urls.length
        has_website := website.2.2.1
        website_url := website.1
        website_status := website.2.1
        price_range := price.1
        price_level := price.2
        price_per_person := price_per_person
        price_voters := price_voters
        price_histogram := price_histogram
        service_options := info.service_options
        accessibility := info.accessibility
        offerings := info.offerings
        dining_options := info.dining_options
        amenities := info.amenities
        planning := info.planning
        payments := info.payments
        parking := info.parking
        opening_hours := opening_hours
        is_open_now := is_open_now
        open_status_text := open_status_text
        popular_times := popular_times
        order_link := order_pair.1
        order_provider := order_pair.2
        menu_link := menu_link
        reserve_link := reserve_link
        social_media := website.2.2.2
        plus_code := plus_code
        photo_categories := photo_categories
        review_topics := review_topics
        rating_distribution := rating_distribution
        reviews := reviews
        customer_updates := customer_updates
        latitude := coords.map Prod.fst
        longitude := coords.map Prod.snd }

/-! ## google_maps.py : _scroll_and_collect_results -/

/-- Lines 726-733: absorb the currently rendered anchors into the
collection, deduplicating by href; anchors whose href is missing or empty
are skipped. -/
def absorb : List El → List El → List String → List El × List String
  | [], c, s => (c, s)
  | it :: rest, c, s =>
    match it.attr "href" with
    | some h =>
      if h ≠ "" ∧ h ∉ s then absorb rest (c ++ [it]) (h :: s)
      else absorb rest c s
    | none => absorb rest c s

theorem absorb_length_ge (items : List El) (c : List El) (s : List String) :
    c.length ≤ (absorb items c s).1.length := by
  induction items generalizing c s with
  | nil => simp [absorb]
  | cons it rest ih =>
    simp only [absorb]
    cases hat : it.attr "href" with
    | none => exact ih c s
    | some hh =>
      by_cases hcond : hh ≠ "" ∧ hh ∉ s
      · simp only [if_pos hcond]
        have h2 := ih (c ++ [it]) (hh :: s)
        have h3 : c.length ≤ (c ++ [it]).length := by simp
        omega
      · simp only [if_neg hcond]
        exact ih c s

/-- Increment the iteration counter of a scroll-loop result. -/
def bumpIter (r : List El × Nat) : List El × Nat := (r.1, r.2 + 1)

/-- Lines 719-747: the scroll-and-collect loop.  anchors n lists the
anchor elements rendered at scroll iteration n.  The loop runs while the
collected count is below the target and the count has changed within the
last three iterations; on exit the collection is cut to the target.  The
second component counts the loop iterations performed (instrumentation
for the termination statements).  The absorb application is written out
in each branch; the source computes it once per iteration and it is pure
here. -/
def scrollLoop (anchors : Nat → List El) (target : Nat) (i : Nat) (collected : List El)
    (seen : List String) (lastCount noChange : Nat) : List El × Nat :=
  if hloop : collected.length < target ∧ noChange < 3 then
    if heq : (absorb (anchors i) collected seen).1.length = lastCount then
      bumpIter (scrollLoop anchors target (i + 1) (absorb (anchors i) collected seen).1
        (absorb (anchors i) collected seen).2 lastCount (noChange + 1))
    else
      bumpIter (scrollLoop anchors target (i + 1) (absorb (anchors i) collected seen).1
        (absorb (anchors i) collected seen).2 (absorb (anchors i) collected seen).1.length 0)
  else (collected.take target, 0)
termination_by 3 * (target - collected.length) + (3 - noChange) +
  min (4 * ((collected.length - lastCount) + (lastCount - collected.length))) 4
decreasing_by
  · have hab := absorb_length_ge (anchors i) collected seen
    obtain ⟨hlt, hnc⟩ := hloop
    omega
  · have hab := absorb_length_ge (anchors i) collected seen
    obtain ⟨hlt, hnc⟩ := hloop
    omega

/-- MapsScraper._scroll_and_collect_results: an absent results container
returns the empty list, otherwise the scroll loop from the empty state. -/
def scroll_and_collect_results (containerFound : Bool) (anchors : Nat → List El)
    (target : Nat) : List El :=
  if containerFound then (scrollLoop anchors target 0 [] [] 0 0).1 else []

/-! ## google_maps.py : search_businesses -/

/-- The environment of one search_businesses call: whether the initial
navigation succeeds, the wait_for_selector outcomes, the page-level
query_selector, the anchors rendered at each scroll iteration, and per
result handle the click outcome and the detail page it opens. -/
structure SearchEnv where
  gotoOk : Bool
  presence : String → Bool
  query : String → Option El
  anchors : Nat → List El
  clickOk : El → Bool
  detail : El → DetailPage

/-- MapsScraper.search_businesses (lines 604-709).  A navigation timeout
or a missing search box raises PlaywrightTimeout, caught by the outer
handler which returns the empty list; the cookie-consent clicks and the
two results-container waits only log and do not change the data flow;
the collected handles are cut to max_results and extracted one by one,
skipping failed extractions. -/
def search_businesses (env : SearchEnv) (q location : String) (max_results : Nat) :
    List ScrapedBusiness :=
  let _search_query := q ++ " en " ++ location ++ ", Paraguay"
  if ¬ env.gotoOk then []
  else if ¬ env.presence "#UGojuc, input.UGojuc, input[name=\"q\"]" then []
  else
    let businesses := scroll_and_collect_results
      ((env.query "div[role=\"feed\"], div.m6QErb.DxyBCb").isSome) env.anchors max_results
    (businesses.take max_results).foldl (fun acc el =>
      match extract_business_details (env.clickOk el) (env.detail el) location with
      | some b => acc ++ [b]
      | none => acc) []

/-! ## google_maps.py : _random_delay -/

/-- MapsScraper._random_delay (lines 331-334): the slept duration is the
uniform sample times the multiplier; u stands for the value drawn by
random.uniform(delay_min, delay_max), and durations are modelled as exact
rationals. -/
def random_delay_duration (u multiplier : Rat) : Rat :=
  u * multiplier

/-! ## Theorems for the frozen claims -/

/-- C9: for every multiplier m at least zero, the duration slept by the
pacing operation MapsScraper._random_delay lies within the closed
interval from delay_min times m to delay_max times m, where the uniform
sample u lies between delay_min and delay_max. -/
theorem c9_rate_bound (delay_min delay_max u m : Rat) (hm : 0 ≤ m)
    (h1 : delay_min ≤ u) (h2 : u ≤ delay_max) :
    delay_min * m ≤ random_delay_duration u m ∧
      random_delay_duration u m ≤ delay_max * m :=
  ⟨mul_le_mul_of_nonneg_right h1 hm, mul_le_mul_of_nonneg_right h2 hm⟩

theorem c9_rate_bound_witness :
    (0 : Rat) ≤ 2 ∧ (2 : Rat) ≤ 3 ∧ (3 : Rat) ≤ 5 ∧
      (2 * 2 ≤ random_delay_duration 3 2 ∧ random_delay_duration 3 2 ≤ 5 * 2) :=
  ⟨by norm_num, by norm_num, by norm_num,
    c9_rate_bound 2 5 3 2 (by norm_num) (by norm_num) (by norm_num)⟩

/-- C5 counterexample: a record whose identity key is new (empty store)
but whose website_status is active is rejected by LeadsManager.add_lead
and nothing is appended, refuting the claim that the store accepts every
new-key record regardless of website status and that false is returned
only when the key is already present. -/
theorem c5_counterexample :
    pyStrip (pyLower "Cafe Central") ∉ initLeads.seen_names ∧
      (add_lead initLeads ⟨"Cafe Central", none, none, some "active"⟩).1 = false ∧
      (add_lead initLeads ⟨"Cafe Central", none, none, some "active"⟩).2 = initLeads := by
  decide

/-- C5 amended: LeadsManager.add_lead returns false exactly when the
normalized-lowercase name is already indexed or the record has a website
(truthy website_url or website_status active) — the website exclusion is
enforced by the store itself, not only by the run loop; the record is
appended and its name indexed exactly when true is returned. -/
theorem c5_store_accept (st : LeadsState) (b : Business) :
    ((add_lead st b).1 = false ↔
      (pyStrip (pyLower b.name) ∈ st.seen_names ∨
        pyTruthy b.website_url = true ∨ b.website_status = some "active")) ∧
    (add_lead st b).2.leads = (if (add_lead st b).1 then st.leads ++ [b] else st.leads) ∧
    (add_lead st b).2.seen_names =
      (if (add_lead st b).1 then pyStrip (pyLower b.name) :: st.seen_names
       else st.seen_names) := by
  unfold add_lead
  by_cases h1 : pyStrip (pyLower b.name) ∈ st.seen_names
  · simp [h1]
  · by_cases h2 : (pyTruthy b.website_url || b.website_status == some "active") = true
    · constructor
      · simp only [Bool.or_eq_true, beq_iff_eq] at h2
        simp [h1, h2]
      · simp [h1, h2]
    · simp only [Bool.or_eq_true, beq_iff_eq, not_or] at h2
      simp [h1, h2]

/-- Store invariant: every persisted lead's normalized name is indexed,
and the normalized names of the persisted leads are pairwise distinct. -/
def StoreInv (st : LeadsState) : Prop :=
  (∀ x ∈ st.leads, pyStrip (pyLower x.name) ∈ st.seen_names) ∧
    (st.leads.map (fun x => pyStrip (pyLower x.name))).Nodup

theorem add_lead_preserves_inv (st : LeadsState) (b : Business) (h : StoreInv st) :
    StoreInv (add_lead st b).2 := by
  obtain ⟨h1, h2⟩ := h
  unfold add_lead
  by_cases hmem : pyStrip (pyLower b.name) ∈ st.seen_names
  · simpa [hmem] using ⟨h1, h2⟩
  · by_cases hweb : (pyTruthy b.website_url || b.website_status == some "active") = true
    · simpa [hmem, hweb] using ⟨h1, h2⟩
    · simp only [if_neg hmem, if_neg hweb, StoreInv]
      constructor
      · intro x hx
        simp only [List.mem_append, List.mem_singleton] at hx
        rcases hx with hx | hx
        · exact List.mem_cons_of_mem _ (h1 x hx)
        · subst hx; exact List.mem_cons_self _ _
      · rw [List.map_append]
        refine List.Nodup.append h2 (by simp) ?_
        intro a ha hb
        simp only [List.map_cons, List.map_nil, List.mem_singleton] at hb
        subst hb
        have : pyStrip (pyLower b.name) ∈ st.seen_names := by
          simp only [List.mem_map] at ha
          obtain ⟨x, hx, hxe⟩ := ha
          exact hxe ▸ h1 x hx
        exact hmem this

theorem runAddLeads_inv (bs : List Business) (st : LeadsState) (h : StoreInv st) :
    StoreInv (runAddLeads st bs) := by
  induction bs generalizing st with
  | nil => exact h
  | cons b rest ih => exact ih (add_lead st b).2 (add_lead_preserves_inv st b h)

/-- C1: across every sequence of LeadsManager.add_lead calls on a fresh
store, no two persisted records share the dedup identity key (normalized
lowercase name plus normalized phone digits); moreover once a record is
accepted it is persisted, and a second accept of any record with the
same key returns false and leaves the store untouched, so exactly one
record with that key is ever stored. -/
theorem c1_dedup_identity :
    (∀ bs : List Business, ((runAddLeads initLeads bs).leads.map dedupKey).Nodup) ∧
    ∀ (st : LeadsState) (b b' : Business),
      (add_lead st b).1 = true → dedupKey b' = dedupKey b →
        b ∈ (add_lead st b).2.leads ∧
        (add_lead (add_lead st b).2 b').1 = false ∧
        (add_lead (add_lead st b).2 b').2 = (add_lead st b).2 := by
  constructor
  · intro bs
    have h := runAddLeads_inv bs initLeads ⟨by simp [initLeads], by simp [initLeads]⟩
    have h2 := h.2
    have hmm : ((runAddLeads initLeads bs).leads.map dedupKey).map Prod.fst
        = (runAddLeads initLeads bs).leads.map (fun x => pyStrip (pyLower x.name)) := by
      rw [List.map_map]; rfl
    exact List.Nodup.of_map Prod.fst (hmm ▸ h2)
  · intro st b b' htrue hkey
    have hkey1 : pyStrip (pyLower b'.name) = pyStrip (pyLower b.name) :=
      congrArg Prod.fst hkey
    unfold add_lead at htrue ⊢
    by_cases hmem : pyStrip (pyLower b.name) ∈ st.seen_names
    · simp [hmem] at htrue
    · by_cases hweb : (pyTruthy b.website_url || b.website_status == some "active") = true
      · simp [hmem, hweb] at htrue
      · refine ⟨?_, ?_, ?_⟩
        · simp [hmem, hweb]
        · simp [hmem, hweb, hkey1]
        · simp [hmem, hweb, hkey1]

theorem c1_dedup_identity_witness :
    ((add_lead initLeads ⟨"Cafe Aroma", some "021 123456", none, none⟩).1 = true ∧
      dedupKey ⟨"CAFE AROMA ", some "021-123-456", none, none⟩ =
        dedupKey ⟨"Cafe Aroma", some "021 123456", none, none⟩) ∧
    (⟨"Cafe Aroma", some "021 123456", none, none⟩ : Business) ∈
        (add_lead initLeads ⟨"Cafe Aroma", some "021 123456", none, none⟩).2.leads ∧
    (add_lead (add_lead initLeads ⟨"Cafe Aroma", some "021 123456", none, none⟩).2
        ⟨"CAFE AROMA ", some "021-123-456", none, none⟩).1 = false ∧
    (add_lead (add_lead initLeads ⟨"Cafe Aroma", some "021 123456", none, none⟩).2
        ⟨"CAFE AROMA ", some "021-123-456", none, none⟩).2 =
      (add_lead initLeads ⟨"Cafe Aroma", some "021 123456", none, none⟩).2 :=
  ⟨⟨by decide, by decide⟩,
    c1_dedup_identity.2 initLeads _ _ (by decide) (by decide)⟩

theorem pending_partition (hist : List String) (combos : List SearchTask) :
    (pendingTasks hist combos).length
      + (combos.filter (fun t => is_completed hist t.term t.loc)).length = combos.length := by
  induction combos with
  | nil => simp [pendingTasks]
  | cons t rest ih =>
    by_cases h : is_completed hist t.term t.loc = true
    · simp only [pendingTasks, List.filter_cons] at ih ⊢
      simp [h, ← ih]
      omega
    · simp only [pendingTasks, List.filter_cons] at ih ⊢
      simp only [Bool.not_eq_true] at h
      simp [h, ← ih]
      omega

theorem loopExec_mem (target : Nat) (yield : SearchTask → Nat) :
    ∀ (l : List SearchTask) (n : Nat), ∀ t ∈ loopExec target yield n l, t ∈ l := by
  intro l
  induction l with
  | nil => intro n t ht; simp [loopExec] at ht
  | cons x rest ih =>
    intro n t ht
    simp only [loopExec] at ht
    by_cases h : target ≤ n
    · simp [h] at ht
    · simp only [if_neg h, List.mem_cons] at ht
      rcases ht with ht | ht
      · exact ht ▸ List.mem_cons_self x rest
      · exact List.mem_cons_of_mem x (ih (n + yield x) t ht)

theorem loopExec_all (target : Nat) (yield : SearchTask → Nat) :
    ∀ (l : List SearchTask) (n : Nat), n + (l.map yield).sum < target →
      loopExec target yield n l = l := by
  intro l
  induction l with
  | nil => intro n _; simp [loopExec]
  | cons x rest ih =>
    intro n h
    simp only [List.map_cons, List.sum_cons] at h
    simp only [loopExec, if_neg (by omega : ¬ target ≤ n)]
    rw [ih (n + yield x) (by omega)]

/-- C2: for a plan of N combinations of which k are recorded in the
completion history, the restart filter keeps exactly the N minus k tasks
whose keys are absent from the history (and all of them); the run loop
only walks tasks from that pending list, so no completed task (zero-lead
ones included, since only key membership matters) is ever re-executed;
and when the lead target is not reached during the run the loop executes
exactly the pending tasks, in plan order. -/
theorem c2_resumability (hist : List String) (combos : List SearchTask)
    (target init : Nat) (yield : SearchTask → Nat) :
    ((pendingTasks hist combos).length
        + (combos.filter (fun t => is_completed hist t.term t.loc)).length = combos.length) ∧
    (∀ t ∈ pendingTasks hist combos, is_completed hist t.term t.loc = false) ∧
    (∀ t ∈ combos, is_completed hist t.term t.loc = false → t ∈ pendingTasks hist combos) ∧
    (∀ t ∈ loopExec target yield init (pendingTasks hist combos),
        is_completed hist t.term t.loc = false) ∧
    (init + ((pendingTasks hist combos).map yield).sum < target →
        loopExec target yield init (pendingTasks hist combos) = pendingTasks hist combos) := by
  refine ⟨pending_partition hist combos, ?_, ?_, ?_, loopExec_all target yield _ init⟩
  · intro t ht
    have := List.of_mem_filter ht
    simpa using this
  · intro t ht hc
    refine List.mem_filter.2 ⟨ht, ?_⟩
    simp [hc]
  · intro t ht
    have hmem := loopExec_mem target yield (pendingTasks hist combos) init t ht
    have := List.of_mem_filter hmem
    simpa using this

theorem c2_resumability_witness :
    loopExec 1000 (fun _ => 1) 0
        (pendingTasks ["café|Centro, Asunción"]
          [⟨"cafe", "café", "Centro, Asunción"⟩, ⟨"cafe", "café", "Norte, Asunción"⟩])
      = pendingTasks ["café|Centro, Asunción"]
          [⟨"cafe", "café", "Centro, Asunción"⟩, ⟨"cafe", "café", "Norte, Asunción"⟩] :=
  (c2_resumability ["café|Centro, Asunción"]
    [⟨"cafe", "café", "Centro, Asunción"⟩, ⟨"cafe", "café", "Norte, Asunción"⟩]
    1000 0 (fun _ => 1)).2.2.2.2 (by decide)

theorem attemptLoop_spec (outcomes : Nat → Option (List Business)) (maxR : Nat)
    (st : RunState) (key : String) :
    ∀ (fuel retry attempts : Nat), maxR - retry ≤ fuel →
      (attemptLoop outcomes maxR st key retry attempts).2.2 ≤ attempts + (maxR - retry) ∧
      ((attemptLoop outcomes maxR st key retry attempts).2.1 = true →
        key ∈ (attemptLoop outcomes maxR st key retry attempts).1.history) ∧
      ((attemptLoop outcomes maxR st key retry attempts).2.1 = false →
        (attemptLoop outcomes maxR st key retry attempts).1 = st) := by
  intro fuel
  induction fuel with
  | zero =>
    intro retry attempts h
    have hr : ¬ retry < maxR := by omega
    rw [attemptLoop]
    simp [hr]
  | succ n ih =>
    intro retry attempts h
    by_cases hr : retry < maxR
    · rw [attemptLoop]
      simp only [dif_pos hr]
      cases ho : outcomes attempts with
      | some results =>
        dsimp only
        refine ⟨by omega, ?_, ?_⟩
        · intro _
          exact List.mem_cons_self _ _
        · intro hfalse
          simp at hfalse
      | none =>
        dsimp only
        have hih := ih (retry + 1) (attempts + 1) (by omega)
        refine ⟨?_, hih.2.1, hih.2.2⟩
        have := hih.1
        omega
    · rw [attemptLoop]
      simp [hr]

theorem attemptLoop_allfail (outcomes : Nat → Option (List Business)) (maxR : Nat)
    (st : RunState) (key : String) (hall : ∀ n, outcomes n = none) :
    ∀ (fuel retry attempts : Nat), maxR - retry = fuel →
      attemptLoop outcomes maxR st key retry attempts = (st, false, attempts + (maxR - retry)) := by
  intro fuel
  induction fuel with
  | zero =>
    intro retry attempts h
    have hr : ¬ retry < maxR := by omega
    rw [attemptLoop]
    simp [hr, h]
  | succ n ih =>
    intro retry attempts h
    have hr : retry < maxR := by omega
    rw [attemptLoop]
    simp only [dif_pos hr, hall attempts]
    rw [ih (retry + 1) (attempts + 1) (by omega)]
    have harith : attempts + 1 + (maxR - (retry + 1)) = attempts + (maxR - retry) := by omega
    rw [harith]

/-- C7: for every task the run loop attempts, the search is tried at most
MAX_RETRIES times, and the task key ends up in the completion history
whether the search succeeded or failed: a successful attempt marks it in
the loop body, and after MAX_RETRIES failures the task is abandoned but
still marked, so no task is retried forever. -/
theorem c7_retry_bound_and_mark (outcomes : Nat → Option (List Business)) (st : RunState)
    (key : String) :
    key ∈ (processTask st key outcomes).history ∧
    (attemptLoop outcomes MAX_RETRIES st key 0 0).2.2 ≤ MAX_RETRIES ∧
    ((∀ n, outcomes n = none) →
      (attemptLoop outcomes MAX_RETRIES st key 0 0).2.1 = false ∧
      (attemptLoop outcomes MAX_RETRIES st key 0 0).2.2 = MAX_RETRIES ∧
      processTask st key outcomes = ⟨key :: st.history, st.leadsSt⟩) := by
  have hspec := attemptLoop_spec outcomes MAX_RETRIES st key MAX_RETRIES 0 0 (by omega)
  refine ⟨?_, by simpa using hspec.1, ?_⟩
  · unfold processTask
    cases hs : (attemptLoop outcomes MAX_RETRIES st key 0 0).2.1 with
    | true =>
      simp only [hs, if_true]
      exact hspec.2.1 hs
    | false =>
      simp only [hs, Bool.false_eq_true, if_false]
      exact List.mem_cons_self _ _
  · intro hall
    have h := attemptLoop_allfail outcomes MAX_RETRIES st key hall MAX_RETRIES 0 0 rfl
    refine ⟨by simp [h], by simp [h], ?_⟩
    unfold processTask
    rw [h]
    rfl

theorem c7_retry_bound_and_mark_witness :
    "café|Centro, Asunción" ∈
        (processTask ⟨[], initLeads⟩ "café|Centro, Asunción" (fun _ => none)).history ∧
    (attemptLoop (fun _ => none) MAX_RETRIES ⟨[], initLeads⟩ "café|Centro, Asunción" 0 0).2.1
        = false ∧
    (attemptLoop (fun _ => none) MAX_RETRIES ⟨[], initLeads⟩ "café|Centro, Asunción" 0 0).2.2
        = MAX_RETRIES := by
  have h := c7_retry_bound_and_mark (fun _ => none) ⟨[], initLeads⟩ "café|Centro, Asunción"
  exact ⟨h.1, (h.2.2 (fun _ => rfl)).1, (h.2.2 (fun _ => rfl)).2.1⟩

theorem scrollLoop_iter_le (anchors : Nat → List El) (target : Nat) :
    ∀ (i : Nat) (c : List El) (s : List String) (lc nc : Nat),
      (scrollLoop anchors target i c s lc nc).2 ≤
        3 * (target - c.length) + (3 - nc) +
          min (4 * ((c.length - lc) + (lc - c.length))) 4 := by
  intro i c s lc nc
  induction i, c, s, lc, nc using scrollLoop.induct anchors target with
  | case1 i c s nc hloop ih =>
    rw [scrollLoop, dif_pos hloop, dif_pos rfl]
    have hab := absorb_length_ge (anchors i) c s
    obtain ⟨hlt, hnc⟩ := hloop
    simp only [bumpIter]
    omega
  | case2 i c s lc nc hloop hne ih =>
    rw [scrollLoop, dif_pos hloop, dif_neg hne]
    have hab := absorb_length_ge (anchors i) c s
    obtain ⟨hlt, hnc⟩ := hloop
    simp only [bumpIter]
    omega
  | case3 i c s lc nc h =>
    rw [scrollLoop, dif_neg h]
    simp

theorem absorb_bad :
    ∀ (items : List El) (c : List El) (s : List String),
      (∀ e ∈ items, e.attr "href" = none ∨ e.attr "href" = some "") →
      absorb items c s = (c, s) := by
  intro items
  induction items with
  | nil => intro c s _; rfl
  | cons it rest ih =>
    intro c s h
    simp only [absorb]
    rcases h it (List.mem_cons_self _ _) with hit | hit
    · rw [hit]
      exact ih c s (fun e he => h e (List.mem_cons_of_mem _ he))
    · rw [hit]
      dsimp only
      have hcond : ¬(("" : String) ≠ "" ∧ ("" : String) ∉ s) := by simp
      rw [if_neg hcond]
      exact ih c s (fun e he => h e (List.mem_cons_of_mem _ he))

theorem scrollLoop_nogrow (anchors : Nat → List El) (target : Nat)
    (hbad : ∀ i e, e ∈ anchors i → e.attr "href" = none ∨ e.attr "href" = some "") :
    ∀ (fuel i nc : Nat), 3 - nc = fuel → 0 < target →
      (scrollLoop anchors target i [] [] 0 nc).2 = fuel := by
  intro fuel
  induction fuel with
  | zero =>
    intro i nc h ht
    have hc : ¬ (([] : List El).length < target ∧ nc < 3) := by
      simp only [List.length_nil]
      omega
    rw [scrollLoop, dif_neg hc]
  | succ n ih =>
    intro i nc h ht
    have hc : (([] : List El).length < target ∧ nc < 3) := by
      simp only [List.length_nil]
      omega
    rw [scrollLoop, dif_pos hc]
    have habs := absorb_bad (anchors i) [] [] (hbad i)
    rw [dif_pos (by simp [habs])]
    simp only [bumpIter]
    rw [habs]
    rw [ih (i + 1) (nc + 1) (by omega) ht]

/-- C4: the result-collection loop of _scroll_and_collect_results
terminates: from the initial state its iteration count is bounded by
three times the target plus three; it stops without a further iteration
as soon as the collected count reaches the target; and on a feed that
never yields any result anchor with a usable href it performs at most 3
scroll iterations regardless of how large the target count is. -/
theorem c4_collector_termination :
    (∀ (anchors : Nat → List El) (target : Nat),
        (scrollLoop anchors target 0 [] [] 0 0).2 ≤ 3 * target + 3) ∧
    (∀ (anchors : Nat → List El) (target i : Nat) (c : List El) (s : List String)
        (lc nc : Nat), target ≤ c.length →
        (scrollLoop anchors target i c s lc nc).2 = 0) ∧
    (∀ (anchors : Nat → List El) (target : Nat),
        (∀ i e, e ∈ anchors i → e.attr "href" = none ∨ e.attr "href" = some "") →
          (scrollLoop anchors target 0 [] [] 0 0).2 ≤ 3) := by
  refine ⟨?_, ?_, ?_⟩
  · intro anchors target
    have h := scrollLoop_iter_le anchors target 0 [] [] 0 0
    simp only [List.length_nil] at h
    omega
  · intro anchors target i c s lc nc hge
    rw [scrollLoop, dif_neg (by omega)]
  · intro anchors target hbad
    by_cases ht : 0 < target
    · exact le_of_eq (scrollLoop_nogrow anchors target hbad 3 0 0 rfl ht)
    · have hc : ¬ (([] : List El).length < target ∧ (0 : Nat) < 3) := by
        simp only [List.length_nil]
        omega
      rw [scrollLoop, dif_neg hc]
      simp

theorem c4_collector_termination_witness :
    (scrollLoop (fun _ => ([] : List El)) 50 0 [] [] 0 0).2 ≤ 3 :=
  c4_collector_termination.2.2 (fun _ => []) 50
    (fun _ e he => absurd he (List.not_mem_nil e))

/-- Collected handles carry a truthy href recorded in the seen set, and
their hrefs are pairwise distinct. -/
def GoodColl (c : List El) (s : List String) : Prop :=
  (∀ e ∈ c, ∃ h, e.attr "href" = some h ∧ h ≠ "" ∧ h ∈ s) ∧
    c.Pairwise (fun a b => a.attr "href" ≠ b.attr "href")

theorem absorb_good (items : List El) :
    ∀ (c : List El) (s : List String), GoodColl c s →
      GoodColl (absorb items c s).1 (absorb items c s).2 := by
  induction items with
  | nil => intro c s hg; exact hg
  | cons it rest ih =>
    intro c s hg
    obtain ⟨h1, h2⟩ := hg
    simp only [absorb]
    cases hat : it.attr "href" with
    | none => exact ih c s ⟨h1, h2⟩
    | some hh =>
      by_cases hcond : hh ≠ "" ∧ hh ∉ s
      · simp only [if_pos hcond]
        refine ih (c ++ [it]) (hh :: s) ⟨?_, ?_⟩
        · intro e he
          rcases List.mem_append.1 he with he | he
          · obtain ⟨x, hx1, hx2, hx3⟩ := h1 e he
            exact ⟨x, hx1, hx2, List.mem_cons_of_mem _ hx3⟩
          · rw [List.mem_singleton] at he
            subst he
            exact ⟨hh, hat, hcond.1, List.mem_cons_self _ _⟩
        · rw [List.pairwise_append]
          refine ⟨h2, by simp, ?_⟩
          intro a ha b hb
          rw [List.mem_singleton] at hb
          subst hb
          obtain ⟨x, hx1, _, hx3⟩ := h1 a ha
          rw [hx1, hat]
          intro hcontra
          have hxh : x = hh := by simpa using hcontra
          exact hcond.2 (hxh ▸ hx3)
      · simp only [if_neg hcond]
        exact ih c s ⟨h1, h2⟩

theorem scrollLoop_good (anchors : Nat → List El) (target : Nat) :
    ∀ (i : Nat) (c : List El) (s : List String) (lc nc : Nat), GoodColl c s →
      (scrollLoop anchors target i c s lc nc).1.Pairwise
          (fun a b => a.attr "href" ≠ b.attr "href") ∧
      (scrollLoop anchors target i c s lc nc).1.length ≤ target := by
  intro i c s lc nc
  induction i, c, s, lc, nc using scrollLoop.induct anchors target with
  | case1 i c s nc hloop ih =>
    intro hg
    rw [scrollLoop, dif_pos hloop, dif_pos rfl]
    simp only [bumpIter]
    exact ih (absorb_good (anchors i) c s hg)
  | case2 i c s lc nc hloop hne ih =>
    intro hg
    rw [scrollLoop, dif_pos hloop, dif_neg hne]
    simp only [bumpIter]
    exact ih (absorb_good (anchors i) c s hg)
  | case3 i c s lc nc h =>
    intro hg
    rw [scrollLoop, dif_neg h]
    constructor
    · exact List.Pairwise.sublist (List.take_sublist target c) hg.2
    · exact List.length_take_le target c

/-- C10: within one collection call, the handles returned by
_scroll_and_collect_results are pairwise distinct in their href
references, and at most targetCount handles are returned. -/
theorem c10_no_duplicates_capped (containerFound : Bool) (anchors : Nat → List El)
    (target : Nat) :
    (scroll_and_collect_results containerFound anchors target).Pairwise
        (fun a b => a.attr "href" ≠ b.attr "href") ∧
    (scroll_and_collect_results containerFound anchors target).length ≤ target := by
  unfold scroll_and_collect_results
  by_cases hc : containerFound = true
  · simp only [hc, if_true]
    exact scrollLoop_good anchors target 0 [] [] 0 0 ⟨by simp, by simp⟩
  · simp only [hc]
    simp

/-- Correct 12-hour to 24-hour conversion following the claim's words: a
12 a.m. hour denotes 00, a 12 p.m. hour denotes 12, and other p.m. hours
gain twelve. -/
def twelveToTwentyFour (h : Nat) (isPM : Bool) : Nat :=
  if isPM then (if h = 12 then 12 else h + 12)
  else (if h = 12 then 0 else h)

/-- The correctly converted 24-hour range of a matched 12-hour pattern
(start hour a.m., end hour p.m.), per the claim's words. -/
def specAmPmRange (h1 : Nat) (m1 : String) (h2 : Nat) (m2 : String) : String :=
  fmt2 (twelveToTwentyFour h1 false) ++ ":" ++ m1 ++ "-" ++
    fmt2 (twelveToTwentyFour h2 true) ++ ":" ++ m2

/-- C6 counterexample: the time text 12 a. m. a 12 p. m. matches the
12-hour pattern, yet _parse_hours_text returns 12:00-24:00 while the
correctly converted range is 00:00-12:00, and a padded unparseable text
is returned stripped rather than verbatim. -/
theorem c6_counterexample :
    parse_hours_text "lunes" "12 a. m. a 12 p. m." = ("monday", "12:00-24:00") ∧
    amPmSearch (pyStrip "12 a. m. a 12 p. m.").toList = some (12, "00", 12, "00") ∧
    specAmPmRange 12 "00" 12 "00" = "00:00-12:00" ∧
    ("12:00-24:00" : String) ≠ "00:00-12:00" ∧
    parse_hours_text "lunes" "  7h  " = ("monday", "7h") ∧
    ("7h" : String) ≠ "  7h  " := by
  refine ⟨by decide, by decide, by decide, by decide, by decide, by decide⟩

/-- C6 amended: _parse_hours_text maps localized Spanish and English day
names to canonical English day keys and returns closed for closed texts,
00:00-24:00 for 24-hours texts, the range with the a.m. start hour taken
verbatim and twelve added to the p.m. end hour for 12-hour matches (the
correct conversion exactly when neither hour is 12), the normalized
range for 24-hour matches, and otherwise the time text stripped of
surrounding whitespace. -/
theorem c6_hours_normalizer (day t : String) :
    ((parse_hours_text day t).1 = dayKeyOf day) ∧
    (isClosedText t = true → (parse_hours_text day t).2 = "closed") ∧
    (isClosedText t = false → is24Text t = true →
        (parse_hours_text day t).2 = "00:00-24:00") ∧
    (∀ h1 m1 h2 m2, isClosedText t = false → is24Text t = false →
        amPmSearch (pyStrip t).toList = some (h1, m1, h2, m2) →
        (parse_hours_text day t).2
            = fmt2 h1 ++ ":" ++ m1 ++ "-" ++ fmt2 (h2 + 12) ++ ":" ++ m2 ∧
          (h1 ≠ 12 → h2 ≠ 12 → (parse_hours_text day t).2 = specAmPmRange h1 m1 h2 m2)) ∧
    (∀ h1 m1 h2 m2, isClosedText t = false → is24Text t = false →
        amPmSearch (pyStrip t).toList = none →
        time24Search (pyStrip t).toList = some (h1, m1, h2, m2) →
        (parse_hours_text day t).2 = fmt2 h1 ++ ":" ++ m1 ++ "-" ++ fmt2 h2 ++ ":" ++ m2) ∧
    (isClosedText t = false → is24Text t = false →
        amPmSearch (pyStrip t).toList = none → time24Search (pyStrip t).toList = none →
        (parse_hours_text day t).2 = pyStrip t) ∧
    (dayKeyOf "Lunes" = "monday" ∧ dayKeyOf "Martes" = "tuesday" ∧
      dayKeyOf "Miércoles" = "wednesday" ∧ dayKeyOf "Jueves" = "thursday" ∧
      dayKeyOf "Viernes" = "friday" ∧ dayKeyOf "Sábado" = "saturday" ∧
      dayKeyOf "Domingo" = "sunday" ∧ dayKeyOf "Monday" = "monday" ∧
      dayKeyOf "Tuesday" = "tuesday" ∧ dayKeyOf "Wednesday" = "wednesday" ∧
      dayKeyOf "Thursday" = "thursday" ∧ dayKeyOf "Friday" = "friday" ∧
      dayKeyOf "Saturday" = "saturday" ∧ dayKeyOf "Sunday" = "sunday") := by
  refine ⟨?_, ?_, ?_, ?_, ?_, ?_, by decide⟩
  · unfold parse_hours_text
    by_cases h1 : isClosedText t = true
    · simp [h1]
    · by_cases h2 : is24Text t = true
      · simp [h1, h2]
      · simp only [h1, h2, Bool.false_eq_true, if_false]
        cases hm : amPmSearch (pyStrip t).data with
        | some r => obtain ⟨a, b, c, d⟩ := r; simp [hm]
        | none =>
          cases h24 : time24Search (pyStrip t).data with
          | some r => obtain ⟨a, b, c, d⟩ := r; simp [hm, h24]
          | none => simp [hm, h24]
  · intro h
    unfold parse_hours_text
    simp [h]
  · intro h1 h2
    unfold parse_hours_text
    simp [h1, h2]
  · intro h1 m1 h2 m2 hc h24 hm
    have hm2 : amPmSearch (pyStrip t).data = some (h1, m1, h2, m2) := hm
    unfold parse_hours_text
    constructor
    · simp [hc, h24, hm2]
    · intro hne1 hne2
      simp [hc, h24, hm2, specAmPmRange, twelveToTwentyFour, hne1, hne2]
  · intro h1 m1 h2 m2 hc h24 hm ht
    have hm2 : amPmSearch (pyStrip t).data = none := hm
    have ht2 : time24Search (pyStrip t).data = some (h1, m1, h2, m2) := ht
    unfold parse_hours_text
    simp [hc, h24, hm2, ht2]
  · intro hc h24 hm ht
    have hm2 : amPmSearch (pyStrip t).data = none := hm
    have ht2 : time24Search (pyStrip t).data = none := ht
    unfold parse_hours_text
    simp [hc, h24, hm2, ht2]

theorem c6_hours_normalizer_witness :
    (parse_hours_text "Martes" "8 a. m. a 8 p. m.").2 = "08:00-20:00" ∧
    (parse_hours_text "Martes" "8 a. m. a 8 p. m.").2 = specAmPmRange 8 "00" 8 "00" := by
  have h := (c6_hours_normalizer "Martes" "8 a. m. a 8 p. m.").2.2.2.1 8 "00" 8 "00"
    (by decide) (by decide) (by decide)
  exact ⟨by rw [h.1]; decide, h.2 (by decide) (by decide)⟩

/-- A detail page on which the panel wait succeeds but every single-field
selector query fails. -/
def emptyDetailPage (url : String) : DetailPage :=
  { url := url, presence := fun _ => true, query := fun _ => none, queryAll := fun _ => [] }

/-- C3: when the detail panel appears but every single-field selector
cascade fails, _extract_business_details still returns a record (it does
not raise, modelled as not returning none) carrying the identity fields
derived from the page URL and the location hint, with every other field
at its default: the Unknown name, zero rating and counts, empty lists
and dicts, none for the optional fields, and website status none. -/
theorem c3_partial_record (url location : String) :
    extract_business_details true (emptyDetailPage url) location =
      some { name := "Unknown", google_place_id := extract_place_id url, category := none,
             address := none, city := extractedCity location,
             neighborhood := extractedNeighborhood location, phone := none, rating := 0,
             photo_urls := [], photo_count := 0, has_website := false, website_url := none,
             website_status := "none", price_range := none, price_level := 0,
             price_per_person := none, price_voters := 0, price_histogram := [],
             service_options := ⟨false, false, false, false⟩, accessibility := [],
             offerings := [], dining_options := [], amenities := [], planning := [],
             payments := [], parking := [], opening_hours := [], is_open_now := none,
             open_status_text := none, popular_times := [], order_link := none,
             order_provider := none, menu_link := none, reserve_link := none,
             social_media := [], plus_code := none, photo_categories := [],
             review_topics := [], rating_distribution := [], reviews := [],
             customer_updates := [],
             latitude := (urlCoords url).map Prod.fst,
             longitude := (urlCoords url).map Prod.snd } := by
  rfl

/-- C8: search_businesses returns the empty result list rather than
raising when the initial navigation times out, when the search box never
appears, or when no results-feed container is present on the page. -/
theorem c8_empty_on_timeout (env : SearchEnv) (q location : String) (max_results : Nat) :
    (env.gotoOk = false → search_businesses env q location max_results = []) ∧
    (env.presence "#UGojuc, input.UGojuc, input[name=\"q\"]" = false →
        search_businesses env q location max_results = []) ∧
    (env.query "div[role=\"feed\"], div.m6QErb.DxyBCb" = none →
        search_businesses env q location max_results = []) := by
  refine ⟨?_, ?_, ?_⟩
  · intro h
    unfold search_businesses
    simp [h]
  · intro h
    unfold search_businesses
    by_cases hg : env.gotoOk = true <;> simp [h, hg]
  · intro h
    unfold search_businesses
    by_cases hg : env.gotoOk = true <;>
      by_cases hp : env.presence "#UGojuc, input.UGojuc, input[name=\"q\"]" = true <;>
      simp [h, hg, hp, scroll_and_collect_results]

theorem c8_empty_on_timeout_witness :
    search_businesses
        ⟨true, fun _ => true, fun _ => none, fun _ => [], fun _ => true,
          fun _ => emptyDetailPage ""⟩ "restaurante" "Centro, Asunción" 20 = [] :=
  (c8_empty_on_timeout
    ⟨true, fun _ => true, fun _ => none, fun _ => [], fun _ => true,
      fun _ => emptyDetailPage ""⟩ "restaurante" "Centro, Asunción" 20).2.2 rfl
